/-
Verification of the signal-forwarder pipeline (src/discord_to_altrady.py).

Shallow embedding conventions:
* Python floats are modelled as exact rationals (ℚ).
* Python `round` (round-half-to-even) is modelled by `rhe`.
* Python dicts with string keys are modelled as association lists.
* Fallible network calls are modelled by `Option` inputs
  (`none` = the call raised an exception).
* Environment-derived module constants (SAFETY_PCT, MAX_LEVERAGE, ...)
  are collected in a `Config` record passed explicitly.
-/
import Mathlib

set_option maxHeartbeats 1000000

attribute [local semireducible] Rat.mul Rat.add Rat.sub Rat.inv

deriving instance DecidableEq for Except

/-! ## Round-half-to-even and tick rounding (source: `round_tick`, lines 229-238) -/

/-- Python 3 `round(q)`: nearest integer, ties to even. -/
def rhe (q : ℚ) : ℤ :=
  let f := ⌊q⌋
  let frac := q - (f : ℚ)
  if frac < 1/2 then f
  else if 1/2 < frac then f + 1
  else if f % 2 = 0 then f else f + 1

/-- Tick map of the source (`TICK_MAP`): instrument → fractional digits. -/
def TICK_MAP : List (String × ℕ) :=
  [("SHIB", 8), ("1000SHIB", 8), ("DOGE", 5), ("XRP", 4), ("SOL", 2), ("AVAX", 3),
   ("AAVE", 2), ("LINK", 3), ("BTC", 2), ("ETH", 2), ("BNB", 2), ("LTC", 2),
   ("ADA", 5), ("MATIC", 5), ("EOS", 4), ("BCH", 2), ("ATOM", 3), ("ALGO", 5),
   ("LUNA2", 3)]

/-- Model of `round_tick(sym, v)`: round `v` to the tick precision of `sym`
(`TICK_MAP.get(sym, 4)` fractional digits). -/
def round_tick (sym : String) (v : ℚ) : ℚ :=
  let d := (TICK_MAP.lookup sym).getD 4
  let p : ℚ := 10 ^ d
  (rhe (v * p) : ℚ) / p

/-! ## Configuration (ENV-derived module constants, lines 42-81) -/

/-- The ENV-derived constants of the script that the modelled functions read. -/
structure Config where
  safety_pct : ℚ
  max_leverage : ℤ
  coin_lev_caps : List (String × ℤ)
  altrady_exchange : String
  quote : String
  tp1_pct : ℤ
  tp2_pct : ℤ
  entry_expiration_min : ℤ
  entry_tol_pct : ℚ
  entry_touch_order_type : String
  leg_filter : Bool
  leg_zigzag_pct : ℚ
  leg_require_trend_match : Bool
  leg_fail_mode : String
deriving DecidableEq, Repr

/-- The default configuration of the script (ENV fallback values). -/
def defaultConfig : Config where
  safety_pct := 80
  max_leverage := 75
  coin_lev_caps := [("LUNA2", 50), ("LUNA", 50)]
  altrady_exchange := "BIFU"
  quote := "USDT"
  tp1_pct := 20
  tp2_pct := 80
  entry_expiration_min := 15
  entry_tol_pct := 1/50
  entry_touch_order_type := "market"
  leg_filter := false
  leg_zigzag_pct := 1
  leg_require_trend_match := true
  leg_fail_mode := "skip"

/-! ## Signal parser (source: `parse_signal_text`, lines 248-311)

The regex layer (lines 240-258) extracts the textual captures; the model
takes those captures as input: `side_raw` is the upper-cased BUY/SELL
capture, `base_raw`/`quote_raw` the upper-cased pair captures, and the four
numbers the `float(...)` of the numeric captures (non-negative by the
number regex, which admits no sign). -/

/-- The regex captures of one signal block, after upper-casing and
`float` conversion (lines 260-278 of the source). -/
structure Extracted where
  side_raw : String
  base_raw : String
  quote_raw : String
  entry : ℚ
  tp1 : ℚ
  tp2 : ℚ
  sl : ℚ
deriving DecidableEq, Repr

/-- The reasons carried by `SkipSignal` exceptions in the modelled paths. -/
inductive SkipReason where
  | nonUsdQuote (base quoted : String)
  | trendMismatch (side trend : String)
  | legTooHigh (leg : ℕ) (trend : String)
  | legFilterFailure
deriving DecidableEq, Repr

/-- Failure outcomes of `parse_signal_text`: `skip` models a raised
`SkipSignal`, the `implausible*` constructors model the two `ValueError`s
of lines 280-283. -/
inductive ParseErr where
  | skip (r : SkipReason)
  | implausibleLong
  | implausibleShort
deriving DecidableEq, Repr

/-- The dict returned by `parse_signal_text` (lines 300-311). -/
structure Signal where
  side : String
  base : String
  quote_from_signal : String
  entry : ℚ
  tp1 : ℚ
  tp2 : ℚ
  sl : ℚ
  sl_pct : ℚ
  leverage : ℤ
  symbol : String
deriving DecidableEq, Repr

/-- Line 261: `side = "long" if side_raw == "BUY" else "short"`. -/
def sideOf (x : Extracted) : String :=
  if x.side_raw = "BUY" then "long" else "short"

/-- Lines 270-273: the instrument alias table applied to the base. -/
def aliasBase (b : String) : String :=
  if b = "LUNA" then "LUNA2" else if b = "SHIB" then "1000SHIB" else b

/-- Line 285: the directional stop-loss percentage. -/
def sl_pct_raw (x : Extracted) : ℚ :=
  if sideOf x = "long" then (x.entry - x.sl) / x.entry * 100
  else (x.sl - x.entry) / x.entry * 100

/-- Lines 286-291: `int(SAFETY_PCT // max(sl_pct, 1e-12))`, floored at 1,
capped at `MAX_LEVERAGE`, then capped at the per-coin cap when present. -/
def compute_leverage (cfg : Config) (base : String) (slp : ℚ) : ℤ :=
  let lev0 : ℤ := ⌊cfg.safety_pct / max slp (1 / 10 ^ 12)⌋
  let lev1 := if lev0 < 1 then 1 else lev0
  let lev2 := if lev1 > cfg.max_leverage then cfg.max_leverage else lev1
  match cfg.coin_lev_caps.lookup base with
  | some c => if lev2 > c then c else lev2
  | none => lev2

/-- Model of `parse_signal_text` after regex extraction (lines 260-311): quote-asset
gate, base aliasing, level plausibility check, risk sizing, tick rounding,
and assembly of the result dict. -/
def parse_signal_text (cfg : Config) (x : Extracted) : Except ParseErr Signal :=
  let side := sideOf x
  if ¬ (x.quote_raw = "USD" ∨ x.quote_raw = "USDT") then
    .error (.skip (.nonUsdQuote x.base_raw x.quote_raw))
  else
    let quoted := "USDT"
    let base := aliasBase x.base_raw
    if side = "long" ∧ ¬ (x.sl < x.entry ∧ x.tp1 > x.entry ∧ x.tp2 > x.entry) then
      .error .implausibleLong
    else if side = "short" ∧ ¬ (x.sl > x.entry ∧ x.tp1 < x.entry ∧ x.tp2 < x.entry) then
      .error .implausibleShort
    else
      let slp := sl_pct_raw x
      let lev := compute_leverage cfg base slp
      let symbol := cfg.altrady_exchange ++ "_" ++ cfg.quote ++ "_" ++ base
      .ok {
        side := side
        base := base
        quote_from_signal := quoted
        entry := round_tick base x.entry
        tp1 := round_tick base x.tp1
        tp2 := round_tick base x.tp2
        sl := round_tick base x.sl
        sl_pct := (rhe (slp * 10 ^ 6) : ℚ) / 10 ^ 6
        leverage := lev
        symbol := symbol }

/-! ## ZigZag pivot detection (source: `zigzag_pivots`, lines 335-363) -/

/-- The loop state of `zigzag_pivots`: pivot list, index and value of the
running extreme, and the current direction (1 = up, -1 = down, 0 = unknown). -/
structure ZState where
  piv : List ℕ
  lastPivotI : ℕ
  lastPivotVal : ℚ
  direction : ℤ
deriving DecidableEq, Repr

/-- One iteration of the `for i in range(1, len(closes))` loop of
`zigzag_pivots` (lines 343-359).  `up_change`/`down_change` are computed
from the state at the top of the iteration; the up-seeking block runs
first and may update the state read by the down-seeking block, exactly as
in the source. -/
def zzStep (thr : ℚ) (closes : List ℚ) (s : ZState) (i : ℕ) : ZState :=
  let ci := closes.getD i 0
  let upChange := (ci - s.lastPivotVal) / s.lastPivotVal
  let downChange := (s.lastPivotVal - ci) / s.lastPivotVal
  let s1 :=
    if s.direction ≥ 0 then
      if upChange ≥ thr then
        { piv := s.piv ++ [s.lastPivotI], lastPivotI := i, lastPivotVal := ci, direction := 1 }
      else if ci < s.lastPivotVal then
        { s with lastPivotI := i, lastPivotVal := ci }
      else s
    else s
  if s1.direction ≤ 0 then
    if downChange ≥ thr then
      { piv := s1.piv ++ [s1.lastPivotI], lastPivotI := i, lastPivotVal := ci, direction := -1 }
    else if ci > s1.lastPivotVal then
      { s1 with lastPivotI := i, lastPivotVal := ci }
    else s1
  else s1

/-- Python `sorted(set(l))` on a list of naturals: insertion keeping order
and dropping duplicates. -/
def insertUniq (a : ℕ) : List ℕ → List ℕ
  | [] => [a]
  | y :: ys => if a < y then a :: y :: ys else if a = y then y :: ys else y :: insertUniq a ys

/-- Python `sorted(set(l))`. -/
def sortedDedup (l : List ℕ) : List ℕ := l.foldr insertUniq []

/-- Model of `zigzag_pivots(closes, pct)` (lines 335-363): threshold `pct/100`,
loop over indices `1 .. len-1`, final implicit trailing pivot, and
`sorted(set(piv))`. -/
def zigzag_pivots (closes : List ℚ) (pct : ℚ) : List ℕ :=
  match closes with
  | [] => []
  | c0 :: _ =>
    let thr := pct / 100
    let s := (List.range' 1 (closes.length - 1)).foldl (zzStep thr closes)
      { piv := [], lastPivotI := 0, lastPivotVal := c0, direction := 0 }
    let piv := if s.lastPivotI ∈ s.piv then s.piv else s.piv ++ [s.lastPivotI]
    sortedDedup piv

/-! ## Trend and leg inference (source: `infer_trend_and_leg`, lines 365-382) -/

/-- The `for i in range(2, len(recent))` scan of `infer_trend_and_leg`
(lines 372-379): the first index whose pivot triple shows the reversal
pattern sets `start` (the `break`); otherwise `start` stays `recent[0]`. -/
def legStartScan (closes : List ℚ) (trend : String) (recent : List ℕ) : List ℕ → ℕ
  | [] => recent.getD 0 0
  | i :: is =>
    let a := recent.getD (i - 2) 0
    let b := recent.getD (i - 1) 0
    let c := recent.getD i 0
    if trend = "up" then
      if closes.getD a 0 < closes.getD b 0 ∧ closes.getD c 0 > closes.getD b 0 then b
      else legStartScan closes trend recent is
    else
      if closes.getD a 0 > closes.getD b 0 ∧ closes.getD c 0 < closes.getD b 0 then b
      else legStartScan closes trend recent is

/-- Model of `infer_trend_and_leg(closes, pivots)` (lines 365-382). -/
def infer_trend_and_leg (closes : List ℚ) (pivots : List ℕ) : String × ℕ :=
  if pivots.length < 3 then ("unknown", 1)
  else
    let recent := pivots.drop (pivots.length - 10)
    let last := recent.getD (recent.length - 1) 0
    let prev := recent.getD (recent.length - 2) 0
    let trend := if closes.getD last 0 > closes.getD prev 0 then "up" else "down"
    let start := legStartScan closes trend recent (List.range' 2 (recent.length - 2))
    let count := (recent.filter (fun p => start ≤ p)).length
    (trend, max 1 (min 5 count))

/-! ## Leg filter enforcement (source: `enforce_leg_filter`, lines 384-410)

The Binance klines fetch is a collaborator; its result is passed in as
`fetched : Option (List ℚ)` (the close column of the fetched bars,
`none` = the fetch raised).  `.ok ()` models a plain return, `.error r`
models a raised `SkipSignal`. -/

/-- Model of `enforce_leg_filter` (lines 384-410) for one parsed signal side. -/
def enforce_leg_filter (cfg : Config) (side : String) (fetched : Option (List ℚ)) :
    Except SkipReason Unit :=
  if cfg.leg_filter = false then .ok ()
  else
    match fetched with
    | none =>
      if cfg.leg_fail_mode = "skip" then .error .legFilterFailure
      else .ok ()
    | some closes =>
      let piv := zigzag_pivots closes cfg.leg_zigzag_pct
      let tl := infer_trend_and_leg closes piv
      let trend := tl.1
      let leg_idx := tl.2
      if cfg.leg_require_trend_match = true ∧ (trend = "up" ∨ trend = "down") then
        if side = "long" ∧ trend ≠ "up" then .error (.trendMismatch side trend)
        else if side = "short" ∧ trend ≠ "down" then .error (.trendMismatch side trend)
        else if leg_idx > 2 then .error (.legTooHigh leg_idx trend)
        else .ok ()
      else if leg_idx > 2 then .error (.legTooHigh leg_idx trend)
      else .ok ()

/-! ## Altrady payload (source: `build_altrady_payload`, lines 431-454) -/

/-- The webhook payload (API credentials omitted: they are opaque
configuration strings touched by no claim). -/
structure Payload where
  exchange : String
  action : String
  symbol : String
  side : String
  order_type : String
  leverage : ℤ
  take_profit : List (ℚ × ℤ)
  stop_loss_price : ℚ
  stop_loss_protection : String
  entry_expiration : ℤ
  signal_price : Option ℚ
deriving DecidableEq, Repr

/-- Model of `build_altrady_payload(parsed, order_type)` (lines 431-454):
`signal_price` is attached exactly when the order type is `"limit"`. -/
def build_altrady_payload (cfg : Config) (parsed : Signal) (order_type : String) : Payload where
  exchange := cfg.altrady_exchange
  action := "open"
  symbol := parsed.symbol
  side := parsed.side
  order_type := order_type
  leverage := parsed.leverage
  take_profit := [(parsed.tp1, cfg.tp1_pct), (parsed.tp2, cfg.tp2_pct)]
  stop_loss_price := parsed.sl
  stop_loss_protection := "BREAK_EVEN"
  entry_expiration := cfg.entry_expiration_min
  signal_price := if order_type = "limit" then some parsed.entry else none

/-! ## Wait-for-touch dispatcher (source: lines 460-528)

Time is modelled by the sequence of poll samples: `fetch0` is the result
of the initial price fetch during Evaluating, `polls` the results of the
successive fetches inside the while loop, one entry per loop iteration
within the time budget; an exhausted list is the timeout.  `some p` models
`post_to_altrady(p); return True`, `none` models `return False`. -/

/-- Model of `should_wait_for_touch(side, last, entry, tol_abs)` (lines 460-468). -/
def should_wait_for_touch (side : String) (last entry tol_abs : ℚ) : Bool :=
  if side = "long" then last < entry - tol_abs else last > entry + tol_abs

/-- The touch order type of lines 514 and 521:
`ENTRY_TOUCH_ORDER_TYPE if ENTRY_TOUCH_ORDER_TYPE in ("market","limit") else "market"`. -/
def touchOrderType (cfg : Config) : String :=
  if cfg.entry_touch_order_type = "market" ∨ cfg.entry_touch_order_type = "limit" then
    cfg.entry_touch_order_type
  else "market"

/-- The polling loop of `wait_for_touch_and_send` (lines 503-528): a failed
price fetch is logged and skipped (`continue`), a touching sample
dispatches with the touch order type, an exhausted budget returns `none`. -/
def touchLoop (cfg : Config) (parsed : Signal) (tol_abs : ℚ) :
    List (Option ℚ) → Option Payload
  | [] => none
  | none :: rest => touchLoop cfg parsed tol_abs rest
  | some last :: rest =>
    if parsed.side = "long" then
      if last ≥ parsed.entry - tol_abs then
        some (build_altrady_payload cfg parsed (touchOrderType cfg))
      else touchLoop cfg parsed tol_abs rest
    else
      if last ≤ parsed.entry + tol_abs then
        some (build_altrady_payload cfg parsed (touchOrderType cfg))
      else touchLoop cfg parsed tol_abs rest

/-- Model of `wait_for_touch_and_send(parsed)` (lines 470-528). -/
def wait_for_touch_and_send (cfg : Config) (parsed : Signal)
    (fetch0 : Option ℚ) (polls : List (Option ℚ)) : Option Payload :=
  let entry := parsed.entry
  let tol_abs := entry * (cfg.entry_tol_pct / 100)
  match fetch0 with
  | none => some (build_altrady_payload cfg parsed "limit")
  | some last =>
    if should_wait_for_touch parsed.side last entry tol_abs = false then
      some (build_altrady_payload cfg parsed "limit")
    else touchLoop cfg parsed tol_abs polls

/-! ## Per-block processing of the main loop (source: lines 583-607)

The `for idx, raw_text in enumerate(blocks, ...)` loop parses each block,
runs the leg filter, and dispatches; `except SkipSignal / AssertionError /
Exception: continue` isolates each block.  The per-block collaborator
results (klines fetch, price fetches) are bundled in `BlockWorld`. -/

/-- The collaborator responses consumed while processing one block. -/
structure BlockWorld where
  legCloses : Option (List ℚ)
  touchFetch : Option ℚ
  touchPolls : List (Option ℚ)
deriving DecidableEq, Repr

/-- What the main loop does with one block: skipped (logged and
`continue`), dropped with a parse/value error (logged and `continue`),
order placed, or no entry (touch timeout). -/
inductive BlockOutcome where
  | skipped (r : SkipReason)
  | dropped (e : ParseErr)
  | placed (p : Payload)
  | noEntry
deriving DecidableEq, Repr

/-- One iteration of the block loop (lines 586-607). -/
def process_block (cfg : Config) (x : Extracted) (w : BlockWorld) : BlockOutcome :=
  match parse_signal_text cfg x with
  | .error (.skip r) => .skipped r
  | .error e => .dropped e
  | .ok parsed =>
    match enforce_leg_filter cfg parsed.side w.legCloses with
    | .error r => .skipped r
    | .ok _ =>
      match wait_for_touch_and_send cfg parsed w.touchFetch w.touchPolls with
      | some p => .placed p
      | none => .noEntry

/-- The whole block loop: one outcome per block, in document order. -/
def process_blocks (cfg : Config) (bs : List (Extracted × BlockWorld)) : List BlockOutcome :=
  bs.map (fun b => process_block cfg b.1 b.2)

/-! ## Basis adjustment (spec §4.6, not present in src) -/

/-- Modelled from the spec: the basis-adjust factor of §4.6 is absent from
`src/discord_to_altrady.py` (it lives in another script variant of the
repository); per the spec, `factor = derivativesPrice / spotPrice` clamped
into `[1 - cap/100, 1 + cap/100]`. -/
def basis_factor (cap spot deriv : ℚ) : ℚ :=
  max (1 - cap / 100) (min (1 + cap / 100) (deriv / spot))

/-- Modelled from the spec: §4.6 multiplies every price level of the signal
by the clamped factor and re-rounds each to tick precision. -/
def basis_adjust (cap spot deriv : ℚ) (sig : Signal) : Signal :=
  let f := basis_factor cap spot deriv
  { sig with
    entry := round_tick sig.base (sig.entry * f)
    tp1 := round_tick sig.base (sig.tp1 * f)
    tp2 := round_tick sig.base (sig.tp2 * f)
    sl := round_tick sig.base (sig.sl * f) }

/-! ## Shared concrete values used by witnesses -/

/-- The `Signal` that `parse_signal_text` produces for the spec's
end-to-end scenario 1 (`BUY on SOL/USD`, 100/105/110/95). -/
def sigSOL : Signal where
  side := "long"
  base := "SOL"
  quote_from_signal := "USDT"
  entry := 100
  tp1 := 105
  tp2 := 110
  sl := 95
  sl_pct := 5
  leverage := 16
  symbol := "BIFU_USDT_SOL"

/-- Scenario-1 extraction record. -/
def xSOL : Extracted where
  side_raw := "BUY"
  base_raw := "SOL"
  quote_raw := "USD"
  entry := 100
  tp1 := 105
  tp2 := 110
  sl := 95

/-- A long SOL/USD signal whose raw levels are plausible
(95 < 100.001 < 100.004) but whose entry and TP1 coincide after rounding
to SOL's 2-digit tick. -/
def xC3 : Extracted where
  side_raw := "BUY"
  base_raw := "SOL"
  quote_raw := "USD"
  entry := 100001/1000
  tp1 := 25001/250
  tp2 := 110
  sl := 95

/-- Scenario-2 extraction record: `SOL/BTC` quote. -/
def xBTC : Extracted where
  side_raw := "BUY"
  base_raw := "SOL"
  quote_raw := "BTC"
  entry := 100
  tp1 := 105
  tp2 := 110
  sl := 95

/-- An arbitrary bundle of collaborator responses for witness runs. -/
def wQuiet : BlockWorld where
  legCloses := none
  touchFetch := none
  touchPolls := []

/-- The default configuration with the leg filter switched on. -/
def cfgLeg : Config := { defaultConfig with leg_filter := true }

/-- Strictly increasing close-price sequence (every later close is higher). -/
def StrictIncr (closes : List ℚ) : Prop :=
  ∀ j, j < closes.length → ∀ i, i < j → closes.getD i 0 < closes.getD j 0

instance StrictIncr.dec (closes : List ℚ) : Decidable (StrictIncr closes) :=
  inferInstanceAs
    (Decidable (∀ j, j < closes.length → ∀ i, i < j → closes.getD i 0 < closes.getD j 0))

/-! ## Basic facts about `rhe` -/

theorem rhe_intCast (n : ℤ) : rhe (n : ℚ) = n := by
  unfold rhe
  norm_num

example : zigzag_pivots [100, 102, 105] 1 = [0, 1, 2] := by decide
example : infer_trend_and_leg [100, 102, 105] [0, 1, 2] = ("up", 2) := by decide
example : zigzag_pivots [100, 101] 10 = [1] := by decide
example : infer_trend_and_leg [100, 101] [1] = ("unknown", 1) := by decide

/-! ## C8: tick rounding is idempotent -/

/-- C8: for every instrument symbol and every price, re-rounding an
already tick-rounded value at the same precision (table precision, or the
4-digit fallback) returns it unchanged. -/
theorem C8_round_tick_idem (sym : String) (v : ℚ) :
    round_tick sym (round_tick sym v) = round_tick sym v := by
  unfold round_tick
  dsimp only
  have hp : ((10 : ℚ) ^ (TICK_MAP.lookup sym).getD 4) ≠ 0 := by positivity
  rw [div_mul_cancel₀ _ hp, rhe_intCast]

/-! ## C9: price-fetch failure while Evaluating fails open -/

/-- C9: if the initial price fetch fails, the dispatcher immediately
dispatches a limit order carrying the unadjusted entry as `signal_price`,
and reports success, for every possible later poll sequence. -/
theorem C9_fail_open (cfg : Config) (parsed : Signal) (polls : List (Option ℚ)) :
    wait_for_touch_and_send cfg parsed none polls
      = some (build_altrady_payload cfg parsed "limit")
    ∧ (build_altrady_payload cfg parsed "limit").order_type = "limit"
    ∧ (build_altrady_payload cfg parsed "limit").signal_price = some parsed.entry := by
  refine ⟨rfl, rfl, ?_⟩
  simp [build_altrady_payload]

/-! ## C10: price-fetch failure while Waiting is swallowed -/

/-- C10: once waiting has begun, a failed poll sample neither dispatches
nor aborts: the run continues exactly as if that sample had not happened,
and with no further samples the wait ends in timeout with no dispatch. -/
theorem C10_poll_failure_swallowed (cfg : Config) (parsed : Signal) (last : ℚ)
    (rest : List (Option ℚ))
    (hw : should_wait_for_touch parsed.side last parsed.entry
        (parsed.entry * (cfg.entry_tol_pct / 100)) = true) :
    wait_for_touch_and_send cfg parsed (some last) (none :: rest)
      = wait_for_touch_and_send cfg parsed (some last) rest
    ∧ wait_for_touch_and_send cfg parsed (some last) [] = none := by
  constructor <;> simp [wait_for_touch_and_send, hw, touchLoop]

theorem C10_poll_failure_swallowed_witness :
    should_wait_for_touch sigSOL.side 90 sigSOL.entry
        (sigSOL.entry * (defaultConfig.entry_tol_pct / 100)) = true
    ∧ (wait_for_touch_and_send defaultConfig sigSOL (some 90) (none :: [some 100])
        = wait_for_touch_and_send defaultConfig sigSOL (some 90) [some 100]
      ∧ wait_for_touch_and_send defaultConfig sigSOL (some 90) [] = none) :=
  ⟨by decide, C10_poll_failure_swallowed defaultConfig sigSOL 90 [some 100] (by decide)⟩

/-! ## C4: the touch decision -/

/-- C4: for every signal and reference price, the dispatcher enters the
Waiting state exactly when the reference price is on the unfavorable side
of entry beyond the tolerance `entry * tolPct / 100` — the wait predicate
holds iff `last < entry - tol` (long) resp. `last > entry + tol` (short)
(the unconditional iff), the dispatcher enters the polling loop precisely
when that predicate holds, and when it does not hold it dispatches
immediately with a limit order carrying the entry price. -/
theorem C4_touch_decision (cfg : Config) (parsed : Signal) (last : ℚ)
    (polls : List (Option ℚ)) :
    (should_wait_for_touch parsed.side last parsed.entry
          (parsed.entry * (cfg.entry_tol_pct / 100)) = true
      ↔ (if parsed.side = "long"
          then last < parsed.entry - parsed.entry * (cfg.entry_tol_pct / 100)
          else last > parsed.entry + parsed.entry * (cfg.entry_tol_pct / 100)))
    ∧ (should_wait_for_touch parsed.side last parsed.entry
          (parsed.entry * (cfg.entry_tol_pct / 100)) = false →
        wait_for_touch_and_send cfg parsed (some last) polls
            = some (build_altrady_payload cfg parsed "limit")
          ∧ (build_altrady_payload cfg parsed "limit").order_type = "limit"
          ∧ (build_altrady_payload cfg parsed "limit").signal_price = some parsed.entry)
    ∧ (should_wait_for_touch parsed.side last parsed.entry
          (parsed.entry * (cfg.entry_tol_pct / 100)) = true →
        wait_for_touch_and_send cfg parsed (some last) polls
          = touchLoop cfg parsed (parsed.entry * (cfg.entry_tol_pct / 100)) polls) := by
  refine ⟨?_, ?_, ?_⟩
  · unfold should_wait_for_touch
    split <;> simp
  · intro hnw
    refine ⟨?_, rfl, ?_⟩
    · simp [wait_for_touch_and_send, hnw]
    · simp [build_altrady_payload]
  · intro hw
    simp [wait_for_touch_and_send, hw]

theorem C4_touch_decision_witness :
    (should_wait_for_touch sigSOL.side 101 sigSOL.entry
        (sigSOL.entry * (defaultConfig.entry_tol_pct / 100)) = false
      ∧ wait_for_touch_and_send defaultConfig sigSOL (some 101) [none]
          = some (build_altrady_payload defaultConfig sigSOL "limit")
      ∧ (build_altrady_payload defaultConfig sigSOL "limit").signal_price = some sigSOL.entry)
    ∧ (should_wait_for_touch sigSOL.side 90 sigSOL.entry
        (sigSOL.entry * (defaultConfig.entry_tol_pct / 100)) = true
      ∧ wait_for_touch_and_send defaultConfig sigSOL (some 90) [some 100]
          = touchLoop defaultConfig sigSOL
              (sigSOL.entry * (defaultConfig.entry_tol_pct / 100)) [some 100]) :=
  ⟨⟨by decide, ((C4_touch_decision defaultConfig sigSOL 101 [none]).2.1 (by decide)).1,
      ((C4_touch_decision defaultConfig sigSOL 101 [none]).2.1 (by decide)).2.2⟩,
    ⟨by decide, (C4_touch_decision defaultConfig sigSOL 90 [some 100]).2.2 (by decide)⟩⟩

/-! ## C5: basis-adjust clamp (spec-modelled, §4.6) -/

/-- C5: for positive reference prices the applied basis factor always lies
in `[1 - cap/100, 1 + cap/100]`, however extreme `deriv / spot` is, and
every price level of the adjusted signal is the original level multiplied
by that clamped factor and re-rounded to tick precision. -/
theorem C5_basis_clamp (cap spot deriv : ℚ) (sig : Signal)
    (hs : 0 < spot) (hd : 0 < deriv) (hcap : 0 ≤ cap) :
    (1 - cap / 100 ≤ basis_factor cap spot deriv
      ∧ basis_factor cap spot deriv ≤ 1 + cap / 100)
    ∧ (basis_adjust cap spot deriv sig).entry
        = round_tick sig.base (sig.entry * basis_factor cap spot deriv)
    ∧ (basis_adjust cap spot deriv sig).tp1
        = round_tick sig.base (sig.tp1 * basis_factor cap spot deriv)
    ∧ (basis_adjust cap spot deriv sig).tp2
        = round_tick sig.base (sig.tp2 * basis_factor cap spot deriv)
    ∧ (basis_adjust cap spot deriv sig).sl
        = round_tick sig.base (sig.sl * basis_factor cap spot deriv) := by
  refine ⟨⟨le_max_left _ _, ?_⟩, rfl, rfl, rfl, rfl⟩
  have h100 : (0:ℚ) ≤ cap / 100 := by positivity
  exact max_le (by linarith) (min_le_left _ _)

theorem C5_basis_clamp_witness :
    ((0:ℚ) < 100 ∧ (0:ℚ) < 1000 ∧ (0:ℚ) ≤ 5)
    ∧ ((1 - 5 / 100 ≤ basis_factor 5 100 1000
        ∧ basis_factor 5 100 1000 ≤ 1 + 5 / 100)
      ∧ (basis_adjust 5 100 1000 sigSOL).entry
          = round_tick sigSOL.base (sigSOL.entry * basis_factor 5 100 1000)
      ∧ (basis_adjust 5 100 1000 sigSOL).tp1
          = round_tick sigSOL.base (sigSOL.tp1 * basis_factor 5 100 1000)
      ∧ (basis_adjust 5 100 1000 sigSOL).tp2
          = round_tick sigSOL.base (sigSOL.tp2 * basis_factor 5 100 1000)
      ∧ (basis_adjust 5 100 1000 sigSOL).sl
          = round_tick sigSOL.base (sigSOL.sl * basis_factor 5 100 1000)) :=
  ⟨by norm_num, C5_basis_clamp 5 100 1000 sigSOL (by norm_num) (by norm_num) (by norm_num)⟩

/-! ## C2: leverage sizing -/

theorem lookup_mem_int {l : List (String × ℤ)} {k : String} {c : ℤ}
    (h : l.lookup k = some c) : (k, c) ∈ l := by
  induction l with
  | nil => simp [List.lookup] at h
  | cons p t ih =>
    obtain ⟨a, b⟩ := p
    rw [List.lookup] at h
    by_cases hk : k = a
    · subst hk
      simp at h
      simp [h]
    · have : (k == a) = false := beq_false_of_ne hk
      rw [this] at h
      exact List.mem_cons_of_mem _ (ih h)

/-- The leverage chain of lines 286-291 equals
`min(globalCap, max(1, floor(safety / slPct)))` further capped by the
per-coin cap, whenever the configuration is sane (`globalCap ≥ 1` and
`globalCap ≤ safety·10¹²`, so that the `1e-12` guard in the denominator is
absorbed by the global cap). -/
theorem compute_leverage_eq (cfg : Config) (base : String) (slp : ℚ)
    (hs : 0 < slp) (hg : 1 ≤ cfg.max_leverage)
    (hbig : (cfg.max_leverage : ℚ) ≤ cfg.safety_pct * 10 ^ 12) :
    compute_leverage cfg base slp
      = min (min cfg.max_leverage (max 1 ⌊cfg.safety_pct / slp⌋))
          ((cfg.coin_lev_caps.lookup base).getD cfg.max_leverage) := by
  have hS : (0:ℚ) < cfg.safety_pct := by
    have h1 : (1:ℚ) ≤ (cfg.max_leverage : ℚ) := by exact_mod_cast hg
    nlinarith
  have hcore : min cfg.max_leverage (max 1 ⌊cfg.safety_pct / max slp (1 / 10 ^ 12)⌋)
      = min cfg.max_leverage (max 1 ⌊cfg.safety_pct / slp⌋) := by
    rcases le_or_lt (1 / 10 ^ 12 : ℚ) slp with hle | hlt
    · rw [max_eq_left hle]
    · have heps : (0:ℚ) < 1 / 10 ^ 12 := by norm_num
      have hdiv_eps : cfg.safety_pct / (1 / 10 ^ 12) = cfg.safety_pct * 10 ^ 12 := by
        rw [div_div_eq_mul_div, div_one]
      have hfl_eps : cfg.max_leverage ≤ ⌊cfg.safety_pct / max slp (1 / 10 ^ 12)⌋ := by
        rw [max_eq_right hlt.le, hdiv_eps]
        exact Int.le_floor.mpr hbig
      have hfl_slp : cfg.max_leverage ≤ ⌊cfg.safety_pct / slp⌋ := by
        apply Int.le_floor.mpr
        apply le_trans hbig
        rw [← hdiv_eps]
        gcongr
      have h1 : min cfg.max_leverage (max 1 ⌊cfg.safety_pct / max slp (1 / 10 ^ 12)⌋)
          = cfg.max_leverage := by omega
      have h2 : min cfg.max_leverage (max 1 ⌊cfg.safety_pct / slp⌋) = cfg.max_leverage := by
        omega
      rw [h1, h2]
  unfold compute_leverage
  dsimp only
  have hstep : (if (if ⌊cfg.safety_pct / max slp (1 / 10 ^ 12)⌋ < 1 then 1
        else ⌊cfg.safety_pct / max slp (1 / 10 ^ 12)⌋) > cfg.max_leverage then cfg.max_leverage
        else if ⌊cfg.safety_pct / max slp (1 / 10 ^ 12)⌋ < 1 then 1
        else ⌊cfg.safety_pct / max slp (1 / 10 ^ 12)⌋)
      = min cfg.max_leverage (max 1 ⌊cfg.safety_pct / max slp (1 / 10 ^ 12)⌋) := by
    split_ifs <;> omega
  rw [hstep, hcore]
  cases hc : cfg.coin_lev_caps.lookup base with
  | none =>
    simp only [Option.getD_none]
    omega
  | some c =>
    simp only [Option.getD_some]
    split_ifs <;> omega

/-- C2: for every successfully parsed signal, under a sane configuration
(nonnegative extracted numbers as the number regex guarantees, a global
cap of at least 1, coin caps of at least 1, and `globalCap ≤ safety·10¹²`
so the `1e-12` denominator guard never shows through), the leverage equals
`floor(safety / slPct)` floored at 1, capped at the global maximum, then
capped at the per-instrument maximum when one exists — hence an integer in
`[1, min(globalCap, instrumentCap or globalCap)]`. -/
theorem C2_leverage (cfg : Config) (x : Extracted) (s : Signal)
    (hnn_sl : 0 ≤ x.sl) (hnn_tp1 : 0 ≤ x.tp1)
    (hg : 1 ≤ cfg.max_leverage)
    (hc : ∀ p ∈ cfg.coin_lev_caps, 1 ≤ p.2)
    (hbig : (cfg.max_leverage : ℚ) ≤ cfg.safety_pct * 10 ^ 12)
    (hok : parse_signal_text cfg x = .ok s) :
    s.leverage
      = min (min cfg.max_leverage (max 1 ⌊cfg.safety_pct / sl_pct_raw x⌋))
          ((cfg.coin_lev_caps.lookup s.base).getD cfg.max_leverage)
    ∧ 1 ≤ s.leverage
    ∧ s.leverage ≤ min cfg.max_leverage ((cfg.coin_lev_caps.lookup s.base).getD cfg.max_leverage) := by
  unfold parse_signal_text at hok
  dsimp only at hok
  split_ifs at hok with h1 h2 h3
  injection hok with hok
  subst hok
  dsimp only
  -- the raw invariant holds in the success branch
  have hside : sideOf x = "long" ∨ sideOf x = "short" := by
    unfold sideOf
    split_ifs <;> simp
  have hslp : 0 < sl_pct_raw x := by
    rcases hside with hL | hS
    · have hinv : x.sl < x.entry ∧ x.tp1 > x.entry ∧ x.tp2 > x.entry := by
        by_contra hno
        exact h2 ⟨hL, hno⟩
      have hentry : 0 < x.entry := lt_of_le_of_lt hnn_sl hinv.1
      unfold sl_pct_raw
      rw [if_pos hL]
      have : 0 < (x.entry - x.sl) / x.entry := div_pos (by linarith [hinv.1]) hentry
      positivity
    · have hLfalse : ¬ sideOf x = "long" := by
        rw [hS]; intro h; exact absurd h (by decide)
      have hinv : x.sl > x.entry ∧ x.tp1 < x.entry ∧ x.tp2 < x.entry := by
        by_contra hno
        exact h3 ⟨hS, hno⟩
      have hentry : 0 < x.entry := lt_of_le_of_lt hnn_tp1 hinv.2.1
      unfold sl_pct_raw
      rw [if_neg hLfalse]
      have : 0 < (x.sl - x.entry) / x.entry := div_pos (by linarith [hinv.1]) hentry
      positivity
  have hcl := compute_leverage_eq cfg (aliasBase x.base_raw) (sl_pct_raw x) hslp hg hbig
  refine ⟨hcl, ?_⟩
  rw [hcl]
  have hcap1 : 1 ≤ (cfg.coin_lev_caps.lookup (aliasBase x.base_raw)).getD cfg.max_leverage := by
    cases hlk : cfg.coin_lev_caps.lookup (aliasBase x.base_raw) with
    | none => simpa using hg
    | some c =>
      have := hc _ (lookup_mem_int hlk)
      simpa using this
  omega

theorem C2_leverage_witness :
    ((0:ℚ) ≤ xSOL.sl ∧ (0:ℚ) ≤ xSOL.tp1 ∧ 1 ≤ defaultConfig.max_leverage
      ∧ (defaultConfig.max_leverage : ℚ) ≤ defaultConfig.safety_pct * 10 ^ 12
      ∧ parse_signal_text defaultConfig xSOL = .ok sigSOL)
    ∧ (sigSOL.leverage
        = min (min defaultConfig.max_leverage (max 1 ⌊defaultConfig.safety_pct / sl_pct_raw xSOL⌋))
            ((defaultConfig.coin_lev_caps.lookup sigSOL.base).getD defaultConfig.max_leverage)
      ∧ 1 ≤ sigSOL.leverage
      ∧ sigSOL.leverage
          ≤ min defaultConfig.max_leverage
              ((defaultConfig.coin_lev_caps.lookup sigSOL.base).getD defaultConfig.max_leverage)) :=
  ⟨⟨by norm_num [xSOL], by norm_num [xSOL], by decide, by norm_num [defaultConfig], by decide⟩,
    C2_leverage defaultConfig xSOL sigSOL (by norm_num [xSOL]) (by norm_num [xSOL]) (by decide)
      (by decide) (by norm_num [defaultConfig]) (by decide)⟩

/-! ## C3: the level-plausibility gate -/

/-- C3 (amended): with an accepted quote asset, the parser fails with the
side's implausible-levels error exactly when the raw (pre-rounding) levels
violate the side's directional invariant; every returned `Signal` comes
from raw levels satisfying the invariant, and its levels are exactly the
tick-rounded raw levels (no silent correction).  The invariant is checked
before tick rounding, so it need not survive the rounding (see the
counterexample). -/
theorem C3_invariant_gate (cfg : Config) (x : Extracted)
    (hq : x.quote_raw = "USD" ∨ x.quote_raw = "USDT") :
    (parse_signal_text cfg x = .error .implausibleLong
      ↔ sideOf x = "long" ∧ ¬ (x.sl < x.entry ∧ x.entry < x.tp1 ∧ x.entry < x.tp2))
    ∧ (parse_signal_text cfg x = .error .implausibleShort
      ↔ sideOf x = "short" ∧ ¬ (x.sl > x.entry ∧ x.tp1 < x.entry ∧ x.tp2 < x.entry))
    ∧ (∀ s : Signal, parse_signal_text cfg x = .ok s →
        (sideOf x = "long" → x.sl < x.entry ∧ x.entry < x.tp1 ∧ x.entry < x.tp2)
        ∧ (sideOf x = "short" → x.sl > x.entry ∧ x.tp1 < x.entry ∧ x.tp2 < x.entry)
        ∧ s.entry = round_tick s.base x.entry ∧ s.tp1 = round_tick s.base x.tp1
        ∧ s.tp2 = round_tick s.base x.tp2 ∧ s.sl = round_tick s.base x.sl) := by
  have hq' : ¬ ¬ (x.quote_raw = "USD" ∨ x.quote_raw = "USDT") := not_not_intro hq
  have hls : sideOf x = "long" → ¬ sideOf x = "short" := by
    intro h
    rw [h]; intro hc; exact absurd hc (by decide)
  unfold parse_signal_text
  dsimp only
  rw [if_neg hq']
  by_cases hL : sideOf x = "long" ∧ ¬ (x.sl < x.entry ∧ x.tp1 > x.entry ∧ x.tp2 > x.entry)
  · rw [if_pos hL]
    refine ⟨?_, ?_, ?_⟩
    · simp only [gt_iff_lt] at hL ⊢
      simp [hL]
    · constructor
      · intro h
        exact absurd h (by simp)
      · rintro ⟨hS, -⟩
        exact absurd hS (by simp [hls hL.1])
    · intro s hs
      exact absurd hs (by simp)
  · rw [if_neg hL]
    by_cases hS : sideOf x = "short" ∧ ¬ (x.sl > x.entry ∧ x.tp1 < x.entry ∧ x.tp2 < x.entry)
    · rw [if_pos hS]
      refine ⟨?_, ?_, ?_⟩
      · constructor
        · intro h
          exact absurd h (by simp)
        · rintro ⟨hLs, hni⟩
          exact absurd hS.1 (hls hLs)
      · simp only [gt_iff_lt] at hS ⊢
        simp [hS]
      · intro s hs
        exact absurd hs (by simp)
    · rw [if_neg hS]
      refine ⟨?_, ?_, ?_⟩
      · constructor
        · intro h
          exact absurd h (by simp)
        · rintro ⟨hLs, hni⟩
          exact absurd ⟨hLs, by simpa [gt_iff_lt, and_comm, and_left_comm] using hni⟩ hL
      · constructor
        · intro h
          exact absurd h (by simp)
        · rintro ⟨hSs, hni⟩
          exact absurd ⟨hSs, by simpa [gt_iff_lt, and_comm, and_left_comm] using hni⟩ hS
      · intro s hs
        injection hs with hs
        subst hs
        refine ⟨?_, ?_, rfl, rfl, rfl, rfl⟩
        · intro hLs
          have := fun hni => hL ⟨hLs, hni⟩
          push_neg at this
          simp only [gt_iff_lt] at this
          tauto
        · intro hSs
          have := fun hni => hS ⟨hSs, hni⟩
          push_neg at this
          simp only [gt_iff_lt] at this
          tauto

theorem C3_invariant_gate_witness :
    (xSOL.quote_raw = "USD" ∨ xSOL.quote_raw = "USDT")
    ∧ ((parse_signal_text defaultConfig xSOL = .error .implausibleLong
        ↔ sideOf xSOL = "long" ∧ ¬ (xSOL.sl < xSOL.entry ∧ xSOL.entry < xSOL.tp1 ∧ xSOL.entry < xSOL.tp2))
      ∧ (parse_signal_text defaultConfig xSOL = .error .implausibleShort
        ↔ sideOf xSOL = "short" ∧ ¬ (xSOL.sl > xSOL.entry ∧ xSOL.tp1 < xSOL.entry ∧ xSOL.tp2 < xSOL.entry))
      ∧ (∀ s : Signal, parse_signal_text defaultConfig xSOL = .ok s →
          (sideOf xSOL = "long" → xSOL.sl < xSOL.entry ∧ xSOL.entry < xSOL.tp1 ∧ xSOL.entry < xSOL.tp2)
          ∧ (sideOf xSOL = "short" → xSOL.sl > xSOL.entry ∧ xSOL.tp1 < xSOL.entry ∧ xSOL.tp2 < xSOL.entry)
          ∧ s.entry = round_tick s.base xSOL.entry ∧ s.tp1 = round_tick s.base xSOL.tp1
          ∧ s.tp2 = round_tick s.base xSOL.tp2 ∧ s.sl = round_tick s.base xSOL.sl)) :=
  ⟨by decide, C3_invariant_gate defaultConfig xSOL (by decide)⟩

/-- C3 counterexample: the parser accepts raw levels satisfying the long
invariant, yet the returned `Signal` violates `entry < takeProfit1`
because tick rounding collapses the two levels — so "every Signal the
parser returns satisfies the invariant" is false for the returned
(rounded) values. -/
theorem C3_counterexample :
    (xC3.sl < xC3.entry ∧ xC3.entry < xC3.tp1 ∧ xC3.entry < xC3.tp2)
    ∧ (parse_signal_text defaultConfig xC3).map
        (fun s => decide (s.entry < s.tp1)) = .ok false := by
  constructor
  · norm_num [xC3]
  · decide

/-! ## C7: unsupported quote asset is a skip, siblings continue -/

/-- C7: a block whose quote asset is outside {USD, USDT} makes the parser
raise the distinct skip error (not a parse failure), and in the block loop
that block's outcome is `skipped` while every sibling block — before and
after it — is processed exactly as it would be on its own. -/
theorem C7_unsupported_quote (cfg : Config) (x : Extracted) (w : BlockWorld)
    (pre post : List (Extracted × BlockWorld))
    (hq : ¬ (x.quote_raw = "USD" ∨ x.quote_raw = "USDT")) :
    parse_signal_text cfg x = .error (.skip (.nonUsdQuote x.base_raw x.quote_raw))
    ∧ process_block cfg x w = .skipped (.nonUsdQuote x.base_raw x.quote_raw)
    ∧ process_blocks cfg (pre ++ (x, w) :: post)
        = process_blocks cfg pre
            ++ .skipped (.nonUsdQuote x.base_raw x.quote_raw) :: process_blocks cfg post := by
  have hp : parse_signal_text cfg x = .error (.skip (.nonUsdQuote x.base_raw x.quote_raw)) := by
    unfold parse_signal_text
    dsimp only
    rw [if_pos hq]
  have hb : process_block cfg x w = .skipped (.nonUsdQuote x.base_raw x.quote_raw) := by
    unfold process_block
    rw [hp]
  refine ⟨hp, hb, ?_⟩
  unfold process_blocks
  rw [List.map_append, List.map_cons, hb]

theorem C7_unsupported_quote_witness :
    ¬ (xBTC.quote_raw = "USD" ∨ xBTC.quote_raw = "USDT")
    ∧ (parse_signal_text defaultConfig xBTC
        = .error (.skip (.nonUsdQuote xBTC.base_raw xBTC.quote_raw))
      ∧ process_block defaultConfig xBTC wQuiet
          = .skipped (.nonUsdQuote xBTC.base_raw xBTC.quote_raw)
      ∧ process_blocks defaultConfig ([] ++ (xBTC, wQuiet) :: [(xSOL, wQuiet)])
          = process_blocks defaultConfig []
              ++ .skipped (.nonUsdQuote xBTC.base_raw xBTC.quote_raw)
                :: process_blocks defaultConfig [(xSOL, wQuiet)]) :=
  ⟨by decide, C7_unsupported_quote defaultConfig xBTC wQuiet [] [(xSOL, wQuiet)] (by decide)⟩

/-! ## C6: the leg-index gate -/

/-- C6: with the leg filter enabled, successful classification, and the
trend-match stage not firing, the signal is rejected on leg grounds
exactly when the computed leg index exceeds the maximum leg index the
source configures (the constant 2 of line 400); at or below it, the
filter accepts. -/
theorem C6_leg_gate (cfg : Config) (side : String) (closes : List ℚ)
    (hon : cfg.leg_filter = true)
    (htm : ¬ (cfg.leg_require_trend_match = true
      ∧ ((infer_trend_and_leg closes (zigzag_pivots closes cfg.leg_zigzag_pct)).1 = "up"
        ∨ (infer_trend_and_leg closes (zigzag_pivots closes cfg.leg_zigzag_pct)).1 = "down")
      ∧ ((side = "long"
            ∧ (infer_trend_and_leg closes (zigzag_pivots closes cfg.leg_zigzag_pct)).1 ≠ "up")
        ∨ (side = "short"
            ∧ (infer_trend_and_leg closes (zigzag_pivots closes cfg.leg_zigzag_pct)).1 ≠ "down")))) :
    (enforce_leg_filter cfg side (some closes)
        = .error (.legTooHigh
            (infer_trend_and_leg closes (zigzag_pivots closes cfg.leg_zigzag_pct)).2
            (infer_trend_and_leg closes (zigzag_pivots closes cfg.leg_zigzag_pct)).1)
      ↔ 2 < (infer_trend_and_leg closes (zigzag_pivots closes cfg.leg_zigzag_pct)).2)
    ∧ (enforce_leg_filter cfg side (some closes) = .ok ()
      ↔ (infer_trend_and_leg closes (zigzag_pivots closes cfg.leg_zigzag_pct)).2 ≤ 2) := by
  have hon' : ¬ cfg.leg_filter = false := by simp [hon]
  unfold enforce_leg_filter
  rw [if_neg hon']
  dsimp only
  set t := infer_trend_and_leg closes (zigzag_pivots closes cfg.leg_zigzag_pct) with ht
  by_cases hQ : cfg.leg_require_trend_match = true ∧ (t.1 = "up" ∨ t.1 = "down")
  · rw [if_pos hQ]
    have hm1 : ¬ (side = "long" ∧ t.1 ≠ "up") := fun hmm => htm ⟨hQ.1, hQ.2, Or.inl hmm⟩
    have hm2 : ¬ (side = "short" ∧ t.1 ≠ "down") := fun hmm => htm ⟨hQ.1, hQ.2, Or.inr hmm⟩
    rw [if_neg hm1, if_neg hm2]
    by_cases hleg : t.2 > 2
    · rw [if_pos hleg]
      constructor
      · simp [hleg]
      · constructor
        · intro h
          exact absurd h (by simp)
        · intro h
          omega
    · rw [if_neg hleg]
      constructor
      · constructor
        · intro h
          exact absurd h (by simp)
        · intro h
          omega
      · simp
        omega
  · rw [if_neg hQ]
    by_cases hleg : t.2 > 2
    · rw [if_pos hleg]
      constructor
      · simp [hleg]
      · constructor
        · intro h
          exact absurd h (by simp)
        · intro h
          omega
    · rw [if_neg hleg]
      constructor
      · constructor
        · intro h
          exact absurd h (by simp)
        · intro h
          omega
      · simp
        omega

theorem C6_leg_gate_witness :
    (cfgLeg.leg_filter = true
      ∧ ¬ (cfgLeg.leg_require_trend_match = true
        ∧ ((infer_trend_and_leg [100, 102, 105] (zigzag_pivots [100, 102, 105] cfgLeg.leg_zigzag_pct)).1 = "up"
          ∨ (infer_trend_and_leg [100, 102, 105] (zigzag_pivots [100, 102, 105] cfgLeg.leg_zigzag_pct)).1 = "down")
        ∧ (("long" = "long"
              ∧ (infer_trend_and_leg [100, 102, 105] (zigzag_pivots [100, 102, 105] cfgLeg.leg_zigzag_pct)).1 ≠ "up")
          ∨ ("long" = "short"
              ∧ (infer_trend_and_leg [100, 102, 105] (zigzag_pivots [100, 102, 105] cfgLeg.leg_zigzag_pct)).1 ≠ "down"))))
    ∧ ((enforce_leg_filter cfgLeg "long" (some [100, 102, 105])
          = .error (.legTooHigh
              (infer_trend_and_leg [100, 102, 105] (zigzag_pivots [100, 102, 105] cfgLeg.leg_zigzag_pct)).2
              (infer_trend_and_leg [100, 102, 105] (zigzag_pivots [100, 102, 105] cfgLeg.leg_zigzag_pct)).1)
        ↔ 2 < (infer_trend_and_leg [100, 102, 105] (zigzag_pivots [100, 102, 105] cfgLeg.leg_zigzag_pct)).2)
      ∧ (enforce_leg_filter cfgLeg "long" (some [100, 102, 105]) = .ok ()
        ↔ (infer_trend_and_leg [100, 102, 105] (zigzag_pivots [100, 102, 105] cfgLeg.leg_zigzag_pct)).2 ≤ 2)) :=
  ⟨⟨by decide, by decide⟩, C6_leg_gate cfgLeg "long" [100, 102, 105] (by decide) (by decide)⟩

/-! ## C1: monotone close sequences and the zigzag detector -/

theorem mem_insertUniq {x a : ℕ} : ∀ {l : List ℕ}, x ∈ insertUniq a l ↔ x = a ∨ x ∈ l := by
  intro l
  induction l with
  | nil => simp [insertUniq]
  | cons y ys ih =>
    unfold insertUniq
    split_ifs with h1 h2
    · simp [List.mem_cons]
    · subst h2
      simp [List.mem_cons]
    · simp only [List.mem_cons, ih]
      tauto

theorem head?_insertUniq (a : ℕ) (l : List ℕ) :
    (insertUniq a l).head? = some a ∨ (insertUniq a l).head? = l.head? := by
  cases l with
  | nil => left; rfl
  | cons y ys =>
    unfold insertUniq
    split_ifs with h1 h2
    · left; rfl
    · right; rfl
    · right; rfl

theorem chain'_insertUniq (a : ℕ) :
    ∀ {l : List ℕ}, l.Chain' (· < ·) → (insertUniq a l).Chain' (· < ·) := by
  intro l
  induction l with
  | nil =>
    intro _
    simp [insertUniq]
  | cons y ys ih =>
    intro h
    rw [List.chain'_cons'] at h
    unfold insertUniq
    split_ifs with h1 h2
    · rw [List.chain'_cons]
      exact ⟨h1, List.chain'_cons'.mpr h⟩
    · exact List.chain'_cons'.mpr h
    · rw [List.chain'_cons']
      refine ⟨?_, ih h.2⟩
      intro z hz
      rcases head?_insertUniq a ys with hh | hh
      · rw [hh] at hz
        simp only [Option.mem_def, Option.some.injEq] at hz
        omega
      · rw [hh] at hz
        exact h.1 z hz

theorem chain'_sortedDedup (l : List ℕ) : (sortedDedup l).Chain' (· < ·) := by
  induction l with
  | nil => simp [sortedDedup]
  | cons y ys ih => exact chain'_insertUniq y ih

theorem mem_sortedDedup {x : ℕ} : ∀ {l : List ℕ}, x ∈ sortedDedup l ↔ x ∈ l := by
  intro l
  induction l with
  | nil => simp [sortedDedup]
  | cons y ys ih =>
    simp only [sortedDedup, List.foldr_cons] at ih ⊢
    rw [mem_insertUniq, ih]
    simp [List.mem_cons]

theorem foldl_inv {α β : Type} (P : β → Prop) (f : β → α → β) :
    ∀ (l : List α) (init : β), P init → (∀ b a, a ∈ l → P b → P (f b a)) →
      P (l.foldl f init) := by
  intro l
  induction l with
  | nil =>
    intro init h _
    exact h
  | cons a t ih =>
    intro init h hstep
    rw [List.foldl_cons]
    exact ih (f init a) (hstep init a (List.mem_cons_self a t) h)
      (fun b z hz hb => hstep b z (List.mem_cons_of_mem a hz) hb)

theorem zzStep_bound {thr : ℚ} {closes : List ℚ} {s : ZState} {i : ℕ}
    (hs : s.lastPivotI < closes.length ∧ ∀ p ∈ s.piv, p < closes.length)
    (hi : i < closes.length) :
    (zzStep thr closes s i).lastPivotI < closes.length
      ∧ ∀ p ∈ (zzStep thr closes s i).piv, p < closes.length := by
  obtain ⟨h1, h2⟩ := hs
  unfold zzStep
  dsimp only
  split_ifs <;> refine ⟨?_, ?_⟩ <;>
    simp_all [List.mem_append] <;>
    (try intro p hp) <;>
    (try rcases hp with hp | hp | hp) <;>
    simp_all

theorem zigzag_pivots_lt (closes : List ℚ) (pct : ℚ) :
    ∀ p ∈ zigzag_pivots closes pct, p < closes.length := by
  cases closes with
  | nil =>
    intro p hp
    simp [zigzag_pivots] at hp
  | cons c0 t =>
    intro p hp
    unfold zigzag_pivots at hp
    dsimp only at hp
    rw [mem_sortedDedup] at hp
    have hinv := foldl_inv
      (fun s : ZState =>
        s.lastPivotI < (c0 :: t).length ∧ ∀ q ∈ s.piv, q < (c0 :: t).length)
      (zzStep (pct / 100) (c0 :: t))
      (List.range' 1 ((c0 :: t).length - 1))
      { piv := [], lastPivotI := 0, lastPivotVal := c0, direction := 0 }
      (by
        constructor
        · simp
        · intro q hq
          simp at hq)
      (by
        intro b a ha hb
        rw [List.mem_range'_1] at ha
        have hlen : a < (c0 :: t).length := by
          simp only [List.length_cons] at ha ⊢
          omega
        exact zzStep_bound hb hlen)
    set sfin := (List.range' 1 ((c0 :: t).length - 1)).foldl
      (zzStep (pct / 100) (c0 :: t))
      { piv := [], lastPivotI := 0, lastPivotVal := c0, direction := 0 } with hsfin
    by_cases hmem : sfin.lastPivotI ∈ sfin.piv
    · rw [if_pos hmem] at hp
      exact hinv.2 p hp
    · rw [if_neg hmem] at hp
      rcases List.mem_append.mp hp with hp | hp
      · exact hinv.2 p hp
      · simp at hp
        subst hp
        exact hinv.1

theorem zigzag_chain' (closes : List ℚ) (pct : ℚ) :
    (zigzag_pivots closes pct).Chain' (· < ·) := by
  cases closes with
  | nil => simp [zigzag_pivots]
  | cons c0 t =>
    unfold zigzag_pivots
    dsimp only
    exact chain'_sortedDedup _

theorem chain'_drop {R : ℕ → ℕ → Prop} {l : List ℕ} (h : l.Chain' R) (k : ℕ) :
    (l.drop k).Chain' R := by
  induction k with
  | zero => simpa using h
  | succ k ih =>
    rw [← List.tail_drop]
    exact ih.tail

theorem chain'_lt_getD {l : List ℕ} (h : l.Chain' (· < ·)) {i : ℕ} (hi : i + 1 < l.length) :
    l.getD i 0 < l.getD (i + 1) 0 := by
  have h1 := List.chain'_iff_get.mp h i (by omega)
  rw [List.getD_eq_getElem?_getD, List.getD_eq_getElem?_getD,
    List.getElem?_eq_getElem (by omega), List.getElem?_eq_getElem hi]
  simpa [List.get_eq_getElem] using h1

/-- C1 (amended): on a strictly increasing close sequence, the inferred
trend is "up" whenever the detector has produced at least three pivots and
"unknown" when it has produced fewer — in particular it is never "down";
the detector is, however, free to produce several pivots before the final
trailing one (see the counterexample). -/
theorem C1_trend (closes : List ℚ) (pct : ℚ) (hmono : StrictIncr closes) :
    (infer_trend_and_leg closes (zigzag_pivots closes pct)).1
      = if (zigzag_pivots closes pct).length < 3 then "unknown" else "up" := by
  set piv := zigzag_pivots closes pct with hpiv
  by_cases h3 : piv.length < 3
  · rw [if_pos h3]
    unfold infer_trend_and_leg
    rw [if_pos h3]
  · rw [if_neg h3]
    unfold infer_trend_and_leg
    rw [if_neg h3]
    dsimp only
    set recent := piv.drop (piv.length - 10) with hrecent
    set m := recent.length with hm
    have hml : m = piv.length - (piv.length - 10) := by
      rw [hm, hrecent, List.length_drop]
    have hm2 : 2 ≤ m := by omega
    have hch : recent.Chain' (· < ·) := chain'_drop (zigzag_chain' closes pct) _
    have hstep : recent.getD (m - 2) 0 < recent.getD (m - 2 + 1) 0 :=
      chain'_lt_getD hch (by omega)
    have hidx : m - 2 + 1 = m - 1 := by omega
    rw [hidx] at hstep
    have hmem : recent.getD (m - 1) 0 ∈ recent := by
      rw [List.getD_eq_getElem?_getD, List.getElem?_eq_getElem (by omega)]
      simpa using List.getElem_mem _
    have hlen : recent.getD (m - 1) 0 < closes.length :=
      zigzag_pivots_lt closes pct _ (List.mem_of_mem_drop hmem)
    have htrend : closes.getD (recent.getD (m - 1) 0) 0
        > closes.getD (recent.getD (m - 2) 0) 0 :=
      hmono _ hlen _ hstep
    rw [if_pos htrend]

theorem C1_trend_witness :
    StrictIncr [100, 102, 105]
    ∧ (infer_trend_and_leg [100, 102, 105] (zigzag_pivots [100, 102, 105] 1)).1
        = if (zigzag_pivots [100, 102, 105] 1).length < 3 then "unknown" else "up" :=
  ⟨by decide, C1_trend [100, 102, 105] 1 (by decide)⟩

/-- C1 counterexample: the strictly increasing sequence 100, 102, 105 with
the positive threshold 1 % yields the pivot list `[0, 1, 2]`, i.e. two
pivots before the final implicit trailing pivot — refuting "at most one
pivot before the final implicit trailing pivot". -/
theorem C1_counterexample :
    StrictIncr [100, 102, 105]
    ∧ (0 : ℚ) < 1
    ∧ zigzag_pivots [100, 102, 105] 1 = [0, 1, 2]
    ∧ ¬ ((zigzag_pivots [100, 102, 105] 1).dropLast.length ≤ 1) := by
  refine ⟨by decide, by norm_num, by decide, by decide⟩

example : rhe (5/2) = 2 := by decide
example : rhe (7/2) = 4 := by decide
example : round_tick "SOL" (100001/1000) = 100 := by decide
example :
    (parse_signal_text defaultConfig
      { side_raw := "BUY", base_raw := "SOL", quote_raw := "USD",
        entry := 100, tp1 := 105, tp2 := 110, sl := 95 }).map Signal.leverage
    = .ok 16 := by decide
